import Mathlib

/-!
Shallow embedding of `tripleo_common/actions/baremetal_deploy.py` (node
reservation and deployment lifecycle manager) and verification of the
specification's claims about it.

Python dicts with string keys are modelled as association lists with the
source's `get` / `setdefault` / assignment semantics; machine-level detail
(the metalsmith backend, the keystone session) is abstracted as explicit
function parameters whose calls are recorded in a trace, so that claims
about which backend calls an operation issues (reserve / provision /
unprovision / wait) can be stated and proved.
-/

namespace BaremetalDeploy

/-- Python `d.get(k)` on a string-keyed dict represented as an association list. -/
def assocGet {α : Type} : List (String × α) → String → Option α
  | [], _ => none
  | (k', v) :: rest, k => if k' = k then some v else assocGet rest k

/-- Python `d[k] = v`: replace the value at an existing key in place, else append.
(Dicts built through this function have unique keys, as Python dicts do.) -/
def assocSet {α : Type} : List (String × α) → String → α → List (String × α)
  | [], k, v => [(k, v)]
  | (k', v') :: rest, k, v =>
    if k' = k then (k, v) :: rest else (k', v') :: assocSet rest k v

/-- Does `pat` occur at the head of `s`? -/
def patMatches : List Char → List Char → Bool
  | [], _ => true
  | _ :: _, [] => false
  | p :: ps, c :: cs => p == c && patMatches ps cs

/-- Python `str.replace`: replace every non-overlapping occurrence of `pat`,
scanning left to right.  Structural recursion on a fuel counter (each step
consumes at least one character, so fuel = input length suffices) keeps the
function kernel-reducible. -/
def replaceAllGo (pat rep : List Char) : Nat → List Char → List Char
  | _, [] => []
  | 0, s => s
  | fuel + 1, c :: rest =>
    if patMatches pat (c :: rest) && !pat.isEmpty then
      rep ++ replaceAllGo pat rep fuel (List.drop (pat.length - 1) rest)
    else
      c :: replaceAllGo pat rep fuel rest

/-- Python `str.replace` lifted to `String`. -/
def pyReplace (s pat rep : String) : String :=
  ⟨replaceAllGo pat.data rep.data s.data.length s.data⟩

/-- ASCII lowercasing of one character (what Python `str.lower()` does on the
ASCII role names this code handles). -/
def lowerChar (c : Char) : Char :=
  if 'A' ≤ c ∧ c ≤ 'Z' then Char.ofNat (c.toNat + 32) else c

/-- Python `str.lower()` (restricted to its ASCII behaviour). -/
def pyLower (s : String) : String :=
  ⟨s.data.map lowerChar⟩

/-- Python truthiness of an optional string (`None` and `''` are falsy). -/
def truthy : Option String → Bool
  | none => false
  | some s => s != ""

/-- `image` fragment of an instance spec (`_IMAGE_SCHEMA`: `href` required,
`checksum` / `kernel` / `ramdisk` optional, no other fields). -/
structure Image where
  href : String
  checksum : Option String := none
  kernel : Option String := none
  ramdisk : Option String := none
deriving DecidableEq, Repr

/-- One entry of `nics` (`_NIC_SCHEMA`: all fields optional strings). -/
structure Nic where
  network : Option String := none
  port : Option String := none
  fixed_ip : Option String := none
  subnet : Option String := none
deriving DecidableEq, Repr

/-- An instance spec (`_INSTANCE_SCHEMA`): a requested logical machine.
An absent dict key is `none`. -/
structure Instance where
  capabilities : Option (List (String × String)) := none
  hostname : Option String := none
  image : Option Image := none
  name : Option String := none
  nics : Option (List Nic) := none
  profile : Option String := none
  resource_class : Option String := none
  root_size_gb : Option Nat := none
  swap_size_mb : Option Nat := none
  traits : Option (List String) := none
deriving DecidableEq, Repr

deriving instance DecidableEq for Except

/-- A role spec (`_ROLES_INPUT_SCHEMA`): `name` required, the rest optional. -/
structure Role where
  name : String
  hostname_format : Option String := none
  count : Option Nat := none
  instances : Option (List Instance) := none
  defaults : Option Instance := none
deriving DecidableEq, Repr

/-- A Python exception: class name and message. -/
structure Exc where
  ty : String
  msg : String
deriving DecidableEq, Repr

/-- Modelled from the spec: metalsmith `sources.detect` is not part of this
repository.  Per §4.2 / §3 it is a pure resolution of the image fragment that
fails with a descriptive error when no usable `href` is given (`image.href`
is required) and otherwise resolves the reference. -/
def sources_detect (image kernel ramdisk checksum : Option String) :
    Except Exc Image :=
  match image with
  | none => .error { ty := "ValueError", msg := "Image href is required" }
  | some href =>
    .ok { href := href, checksum := checksum, kernel := kernel, ramdisk := ramdisk }

/-- `_get_source`: resolve the instance's `image` fragment. -/
def _get_source (inst : Instance) : Except Exc Image :=
  let image := inst.image
  sources_detect (image.map Image.href) (image.bind Image.kernel)
    (image.bind Image.ramdisk) (image.bind Image.checksum)

/-- The range/length checks of `_INSTANCE_SCHEMA` that the structure's types
do not already enforce (checked by `jsonschema.validate`): `hostname` length
between 2 and 255, `root_size_gb ≥ 4`, `swap_size_mb ≥ 64`. -/
def instSchemaOk (i : Instance) : Bool :=
  (match i.hostname with
   | none => true
   | some h => decide (2 ≤ h.length) && decide (h.length ≤ 255)) &&
  (match i.root_size_gb with
   | none => true
   | some n => decide (4 ≤ n)) &&
  (match i.swap_size_mb with
   | none => true
   | some n => decide (64 ≤ n))

/-- `if inst.get('hostname')`: track the hostname for uniqueness checking. -/
def addHostname (i : Instance) (hostnames : List String) :
    Except String (List String) :=
  match i.hostname with
  | some h =>
    if h != "" then
      if hostnames.contains h then
        .error ("Hostname " ++ h ++ " is used more than once")
      else .ok (h :: hostnames)
    else .ok hostnames
  | none => .ok hostnames

/-- `if inst.get('name')`: track the node name for uniqueness checking. -/
def addName (i : Instance) (names : List String) :
    Except String (List String) :=
  match i.name with
  | some n =>
    if n != "" then
      if names.contains n then
        .error ("Node " ++ n ++ " is requested more than once")
      else .ok (n :: names)
    else .ok names
  | none => .ok names

/-- The per-instance loop of `_validate_instances`: image-source resolution,
hostname uniqueness, name uniqueness, in source order. -/
def validateInstancesGo :
    List Instance → List String → List String → Except String Unit
  | [], _, _ => .ok ()
  | i :: rest, hostnames, names =>
    match _get_source i with
    | .error e => .error e.msg
    | .ok _ =>
      match addHostname i hostnames with
      | .error e => .error e
      | .ok hostnames1 =>
        match addName i names with
        | .error e => .error e
        | .ok names1 => validateInstancesGo rest hostnames1 names1

/-- `_validate_instances`: schema conformance of the whole batch first
(`jsonschema.validate`), then the per-instance checks. The returned string
is `str(exc)` as surfaced by the callers. -/
def _validate_instances (instances : List Instance) : Except String Unit :=
  if instances.all instSchemaOk then validateInstancesGo instances [] []
  else .error "schema validation failed"

/-- The request sent to `provisioner.reserve_node`. -/
structure ReserveReq where
  resource_class : String
  capabilities : Option (List (String × String))
  candidates : Option (List String)
  traits : Option (List String)
deriving DecidableEq, Repr

/-- The request sent to `provisioner.provision_node` (the cloud-init config
built in `DeployNodeAction.__init__` is fixed before `run` and carried
implicitly). -/
structure ProvisionReq where
  node : String
  hostname : String
  image : Image
  nics : List Nic
  root_size_gb : Nat
  swap_size_mb : Option Nat
deriving DecidableEq, Repr

/-- One backend interaction, as recorded by a mock provisioner: the call made
and (for calls whose outcome steers control flow) the backend's response.
Nodes and provisioned instances are identified by their backend handles. -/
inductive Call where
  | reserve (req : ReserveReq) (outcome : Except Exc String)
  | provisionCall (req : ProvisionReq) (outcome : Except Exc String)
  | unprovision (node : String)
  | waitCall (uuids : List String) (timeout : Nat) (outcome : Except Exc String)
deriving DecidableEq, Repr

/-- Nodes successfully reserved, in trace order. -/
def reservedNodes (calls : List Call) : List String :=
  calls.filterMap fun c =>
    match c with
    | .reserve _ (.ok node) => some node
    | _ => none

/-- Nodes for which a release (`unprovision_node`) call was issued, in trace
order. -/
def releasedNodes (calls : List Call) : List String :=
  calls.filterMap fun c =>
    match c with
    | .unprovision node => some node
    | _ => none

/-- `_release_nodes`: best-effort release of each node, in order; per-node
failures are logged and swallowed, so only the issued calls matter. -/
def _release_nodes (nodes : List String) : List Call :=
  nodes.map Call.unprovision

/-- Lines 206–209: `if instance.get('profile'): instance.setdefault(
'capabilities', {})['profile'] = instance['profile']` — a plain dict
assignment into the (possibly fresh) capabilities dict. -/
def applyProfile (inst : Instance) : Instance :=
  if truthy inst.profile then
    { inst with
      capabilities :=
        some (assocSet (inst.capabilities.getD []) "profile" (inst.profile.getD "")) }
  else inst

/-- The `reserve_node` request built for one instance (lines 198–216):
candidates from a truthy `name`, resource class falling back on the default
when falsy (`instance.get('resource_class') or self.default_resource_class`). -/
def mkReserveReq (default_resource_class : String) (inst : Instance) : ReserveReq :=
  { resource_class :=
      match inst.resource_class with
      | some rc => if rc != "" then rc else default_resource_class
      | none => default_resource_class,
    capabilities := inst.capabilities,
    candidates := if truthy inst.name then some [inst.name.getD ""] else none,
    traits := inst.traits }

/-- One reservation result entry: `{'node': node.id, 'instance': instance}`
(field `inst` named apart from the Lean keyword). -/
structure Reservation where
  node : String
  inst : Instance
deriving DecidableEq, Repr

/-- The `try` loop of `ReserveNodesAction.run` (lines 195–226): reserve one
node per instance in order; on any backend exception release every node
reserved so far and surface `"Type: message"`. -/
def reserveLoop (f : ReserveReq → Except Exc String) (drc : String) :
    List Instance → List Reservation → List String → List Call →
    Except String (List Reservation) × List Call
  | [], acc, _, calls => (.ok acc, calls)
  | instance_ :: rest, acc, nodes, calls =>
    match f (mkReserveReq drc (applyProfile instance_)) with
    | .ok node =>
      reserveLoop f drc rest (acc ++ [⟨node, applyProfile instance_⟩])
        (nodes ++ [node])
        (calls ++ [.reserve (mkReserveReq drc (applyProfile instance_)) (.ok node)])
    | .error e =>
      (.error (e.ty ++ ": " ++ e.msg),
        (calls ++ [.reserve (mkReserveReq drc (applyProfile instance_)) (.error e)])
          ++ _release_nodes nodes)

/-- `ReserveNodesAction.run`: validate, then reserve sequentially with
rollback. Returns the action result together with the backend-call trace. -/
def reserveNodesRun (f : ReserveReq → Except Exc String)
    (default_resource_class : String) (instances : List Instance) :
    Except String (List Reservation) × List Call :=
  match _validate_instances instances with
  | .error e => (.error e, [])
  | .ok _ => reserveLoop f default_resource_class instances [] [] []

/-- The instance object the backend resolves for a hostname
(`provisioner.show_instance`): its reported hostname (possibly unset) and
node uuid. -/
structure FoundInstance where
  hostname : Option String := none
  uuid : String
deriving DecidableEq, Repr

/-- Outcome of `provisioner.show_instance(hostname)`: a resolved instance,
a not-found style exception (`sdk_exc.ResourceNotFound` or
`metalsmith.exceptions.Error`), or any other exception. -/
inductive ShowResult where
  | found (inst : FoundInstance)
  | notFound
  | backendError (e : Exc)
deriving DecidableEq, Repr

/-- The success payload of `CheckExistingInstancesAction.run`.  The code
passes each found instance through `_instance_to_dict` (a per-element
enrichment with port information queried from the backend); that map touches
neither membership nor order, so found entries are kept as the resolved
instances themselves. -/
structure CheckResult where
  not_found : List Instance
  instances : List FoundInstance
deriving DecidableEq, Repr

/-- Error raised on a hostname/name collision (lines 150–155). -/
def hostnameMismatchError (hostname uuid : String) : String :=
  "Requested hostname " ++ hostname ++ " was not found, but the deployed node "
    ++ uuid ++ " has a matching name. Refusing to proceed to avoid confusing "
    ++ "results. Please either rename the node or use a different hostname"

/-- The per-request loop of `CheckExistingInstancesAction.run`
(lines 128–171): skip requests without a `hostname` key, look the rest up,
sort into found / not-found, abort the whole batch on a backend error or on
a reported-hostname mismatch. -/
def checkLoop (showInst : String → ShowResult) :
    List Instance → List Instance → List FoundInstance →
    Except String CheckResult
  | [], not_found, found => .ok ⟨not_found, found⟩
  | request :: rest, not_found, found =>
    match request.hostname with
    | none => checkLoop showInst rest not_found found
    | some h =>
      match showInst h with
      | .notFound => checkLoop showInst rest (not_found ++ [request]) found
      | .backendError e =>
        .error ("Failed to request instance information for hostname " ++ h
          ++ ". " ++ e.ty ++ ": " ++ e.msg)
      | .found inst =>
        if truthy inst.hostname && inst.hostname != some h then
          .error (hostnameMismatchError h inst.uuid)
        else checkLoop showInst rest not_found (found ++ [inst])

/-- `CheckExistingInstancesAction.run`: validate, then classify each
requested instance. -/
def checkExistingRun (showInst : String → ShowResult)
    (instances : List Instance) : Except String CheckResult :=
  match _validate_instances instances with
  | .error e => .error e
  | .ok _ => checkLoop showInst instances [] []

/-- The `provision_node` request built in `DeployNodeAction.run`
(lines 262–272): nics default to one NIC on the default network, root size
defaults to the constructor default, swap size passes through. -/
def mkProvisionReq (inst : Instance) (node hostname : String) (image : Image)
    (default_network : String) (default_root_size : Nat) : ProvisionReq :=
  { node := node,
    hostname := hostname,
    image := image,
    nics := inst.nics.getD [{ network := some default_network }],
    root_size_gb := inst.root_size_gb.getD default_root_size,
    swap_size_mb := inst.swap_size_mb }

/-- `DeployNodeAction.run` (lines 249–283): validate the single instance
(no backend call, no release on failure); then, inside the `try` block,
resolve the image source, read `self.instance['hostname']` (a missing key
raises and is caught by the same handler), and issue the provision request;
any exception in the `try` block releases the given node and surfaces
`"Type: message"`.  The success payload is the provisioned instance's
backend handle (`_instance_to_dict` enrichment elided as in `CheckResult`). -/
def deployNodeRun (prov : ProvisionReq → Except Exc String) (inst : Instance)
    (node : String) (default_network : String) (default_root_size : Nat) :
    Except String String × List Call :=
  match _validate_instances [inst] with
  | .error e => (.error e, [])
  | .ok _ =>
    match _get_source inst with
    | .error e => (.error (e.ty ++ ": " ++ e.msg), _release_nodes [node])
    | .ok image =>
      match inst.hostname with
      | none => (.error "KeyError: 'hostname'", _release_nodes [node])
      | some hostname =>
        let req := mkProvisionReq inst node hostname image default_network
          default_root_size
        match prov req with
        | .error e =>
          (.error (e.ty ++ ": " ++ e.msg),
            [Call.provisionCall req (.error e)] ++ _release_nodes [node])
        | .ok res => (.ok res, [Call.provisionCall req (.ok res)])

/-- The dict produced by the previous deployment step, as consumed by
`WaitForDeploymentAction` (`self.instance['uuid']`, `['hostname']`). -/
structure WaitInstanceRef where
  hostname : String
  uuid : String
deriving DecidableEq, Repr

/-- `WaitForDeploymentAction.run` (lines 294–311): wait for provisioning of
the single uuid; on any exception return the error without tearing anything
down (the node is deliberately left alone). -/
def waitForDeploymentRun (wait : List String → Nat → Except Exc String)
    (inst : WaitInstanceRef) (timeout : Nat) :
    Except String String × List Call :=
  match wait [inst.uuid] timeout with
  | .error e =>
    (.error (e.ty ++ ": " ++ e.msg),
      [Call.waitCall [inst.uuid] timeout (.error e)])
  | .ok res => (.ok res, [Call.waitCall [inst.uuid] timeout (.ok res)])

/-- Python `dict.update`: fields present in `over` win, field by field. -/
def mergeInst (base over : Instance) : Instance where
  capabilities := match over.capabilities with
    | some v => some v
    | none => base.capabilities
  hostname := match over.hostname with
    | some v => some v
    | none => base.hostname
  image := match over.image with
    | some v => some v
    | none => base.image
  name := match over.name with
    | some v => some v
    | none => base.name
  nics := match over.nics with
    | some v => some v
    | none => base.nics
  profile := match over.profile with
    | some v => some v
    | none => base.profile
  resource_class := match over.resource_class with
    | some v => some v
    | none => base.resource_class
  root_size_gb := match over.root_size_gb with
    | some v => some v
    | none => base.root_size_gb
  swap_size_mb := match over.swap_size_mb with
    | some v => some v
    | none => base.swap_size_mb
  traits := match over.traits with
    | some v => some v
    | none => base.traits

/-- Lines 349–357 of `ExpandRolesAction.run`, per instance of an explicit
`instances` list: default the image, and default `hostname` to `name` when
`hostname` is absent and `name` present (key-presence checks). -/
def prePassInst (default_image : String) (inst : Instance) : Instance :=
  let i1 := match inst.image with
    | some _ => inst
    | none => { inst with image := some { href := default_image } }
  if i1.hostname.isNone && i1.name.isSome then { i1 with hostname := i1.name }
  else i1

/-- The pre-validation pass applied to every role's explicit instances. -/
def prePassRole (default_image : String) (r : Role) : Role :=
  { r with instances := r.instances.map (List.map (prePassInst default_image)) }

/-- Schema conformance of one role (`_ROLES_INPUT_SCHEMA`): the nested
`defaults` fragment and `instances` items must satisfy the instance schema;
the remaining constraints are enforced by the structure's types. -/
def roleSchemaOk (r : Role) : Bool :=
  (match r.defaults with
   | some d => instSchemaOk d
   | none => true) &&
  (r.instances.getD []).all instSchemaOk

/-- Lines 503–509 of `_validate_roles`: a role's `defaults` fragment may
specify neither `hostname` nor `name`. -/
def checkDefaults (item : Role) : Except String Unit :=
  match item.defaults with
  | some d =>
    if d.hostname.isSome then
      .error (item.name ++ ": cannot specify hostname in defaults")
    else if d.name.isSome then
      .error (item.name ++ ": cannot specify name in defaults")
    else .ok ()
  | none => .ok ()

/-- The per-role loop of `_validate_roles` (lines 498–511): count/instances
mutual exclusion, defaults without hostname or name, and validation of any
explicit instances. -/
def validateRolesGo : List Role → Except String Unit
  | [] => .ok ()
  | item :: rest =>
    if item.count.isSome && item.instances.isSome then
      .error "Count and instances cannot be provided together"
    else
      match checkDefaults item with
      | .error e => .error e
      | .ok _ =>
        match
          (match item.instances with
           | some insts => _validate_instances insts
           | none => (.ok () : Except String Unit)) with
        | .error e => .error e
        | .ok _ => validateRolesGo rest

/-- `_validate_roles`: schema conformance of the whole list first, then the
per-role checks.  (The source's `stackname` parameter is unused by its
body.) -/
def _validate_roles (roles : List Role) : Except String Unit :=
  if roles.all roleSchemaOk then validateRolesGo roles
  else .error "schema validation failed"

/-- `_hostname_format` (lines 549–553): a falsy format is replaced by the
synthesized default, with the historical `Compute` → `novacompute` alias. -/
def _hostname_format (hostname_format : Option String) (role_name : String) :
    String :=
  match hostname_format with
  | some f =>
    if f != "" then f
    else "%stackname%-"
      ++ (if role_name = "Compute" then "novacompute" else pyLower role_name)
      ++ "-%index%"
  | none =>
    "%stackname%-"
      ++ (if role_name = "Compute" then "novacompute" else pyLower role_name)
      ++ "-%index%"

/-- `_build_hostname` (lines 556–559): substitute `%index%` then
`%stackname%`. -/
def _build_hostname (hostname_format : String) (index : Nat) (stack : String) :
    String :=
  pyReplace (pyReplace hostname_format "%index%" (toString index))
    "%stackname%" stack

/-- The hostname actually chosen at lines 356–357 / 389, as a function of the
instance's original fields: the explicit `hostname` when present, else the
`name` when present, else the generated candidate. -/
def specFinalHostname (inst : Instance) (gen_name : String) : String :=
  match inst.hostname with
  | some h => h
  | none =>
    match inst.name with
    | some n => n
    | none => gen_name

/-- Lines 383–389 for a single instance of an explicit `instances` list:
`inst = {}`, `inst.update(role['defaults'])`, `inst.update(instance)`,
`inst.setdefault('hostname', inst.get('name', gen_name))`. -/
def expandInst (defaults : Option Instance) (gen_name : String)
    (instance_ : Instance) : Instance :=
  let inst1 : Instance := match defaults with
    | some d => mergeInst {} d
    | none => {}
  let inst2 := mergeInst inst1 instance_
  { inst2 with hostname := some (specFinalHostname inst2 gen_name) }

/-- The explicit-`instances` branch of `ExpandRolesAction.run`
(lines 382–391), started at position `index`: merge defaults under the
instance, default the final hostname from `name` or the generated candidate,
and record the `(generated candidate, final hostname)` pair. -/
def expandExplicit (defaults : Option Instance) (fmt stack : String) :
    Nat → List Instance → List Instance × List (String × String)
  | _, [] => ([], [])
  | index, instance_ :: rest =>
    (expandInst defaults (_build_hostname fmt index stack) instance_ ::
       (expandExplicit defaults fmt stack (index + 1) rest).1,
     (_build_hostname fmt index stack,
       (expandInst defaults (_build_hostname fmt index stack)
         instance_).hostname.getD "") ::
       (expandExplicit defaults fmt stack (index + 1) rest).2)

/-- The `count` branch of `ExpandRolesAction.run` (lines 392–406): one
instance per index with the generated hostname, defaults merged over it, the
image defaulted, and an identity hostname-map pair. -/
def expandCount (defaults : Option Instance) (fmt stack default_image : String)
    (count : Nat) : List Instance × List (String × String) :=
  ((List.range count).map fun index =>
      let hostname := _build_hostname fmt index stack
      let inst1 : Instance := { hostname := some hostname }
      let inst2 := match defaults with
        | some d => mergeInst inst1 d
        | none => inst1
      match inst2.image with
      | some _ => inst2
      | none => { inst2 with image := some { href := default_image } },
    (List.range count).map fun index =>
      let hostname := _build_hostname fmt index stack
      (hostname, hostname))

/-- `parameter_defaults` values: strings, integers, or the hostname map. -/
inductive PVal where
  | s (v : String)
  | n (v : Nat)
  | m (v : List (String × String))
deriving DecidableEq, Repr

/-- The main role loop of `ExpandRolesAction.run` (lines 368–406), collecting
the flat instance list, the hostname-map pairs in recording order, and the
per-role `parameter_defaults` entries in recording order. -/
def expandRolesLoop (stack default_image : String) :
    List Role →
    List Instance × List (String × String) × List (String × PVal)
  | [] => ([], [], [])
  | role :: rest =>
    let fmt := _hostname_format role.hostname_format role.name
    let (insts, pairs, count) :=
      match role.instances with
      | some ris =>
        let (is, ps) := expandExplicit role.defaults fmt stack 0 ris
        (is, ps, ris.length)
      | none =>
        let c := role.count.getD 1
        let (is, ps) := expandCount role.defaults fmt stack default_image c
        (is, ps, c)
    let (restInsts, restPairs, restParams) :=
      expandRolesLoop stack default_image rest
    (insts ++ restInsts, pairs ++ restPairs,
      [(role.name ++ "DeployedServerHostnameFormat", PVal.s fmt),
       (role.name ++ "DeployedServerCount", PVal.n count)] ++ restParams)

/-- The result of `ExpandRolesAction.run`: the flat instance list and the
environment's `parameter_defaults` dict (whose first-inserted key is
`HostnameMap`). -/
structure ExpandResult where
  instances : List Instance
  parameter_defaults : List (String × PVal)
deriving DecidableEq, Repr

/-- The final `HostnameMap` recorded in an expansion result. -/
def hostnameMapOf (r : ExpandResult) : List (String × String) :=
  match assocGet r.parameter_defaults "HostnameMap" with
  | some (.m m) => m
  | _ => []

/-- `ExpandRolesAction.run` (lines 347–415): pre-pass over explicit
instances, role validation, expansion, final instance validation.  The
hostname-map pairs and parameter entries recorded by the loop are folded
into dicts with Python assignment semantics. -/
def expandRolesRun (roles : List Role) (stackname default_image : String) :
    Except String ExpandResult :=
  let roles' := roles.map (prePassRole default_image)
  match _validate_roles roles' with
  | .error e => .error e
  | .ok _ =>
    let (instances, pairs, params) :=
      expandRolesLoop stackname default_image roles'
    let hostname_map := pairs.foldl (fun m p => assocSet m p.1 p.2) []
    match _validate_instances instances with
    | .error e => .error e
    | .ok _ =>
      .ok ⟨instances,
        params.foldl (fun m p => assocSet m p.1 p.2)
          [("HostnameMap", PVal.m hostname_map)]⟩

/-! ## Theorems -/

/-- C6: `expandRoles` on role `Compute`, `count = 3`, stack `overcloud` and no
explicit hostname format yields exactly `overcloud-novacompute-0/1/2`; in
general an unspecified hostname format is synthesized as
`%stackname%-<rolealias>-%index%` with the alias the lowercased role name,
except the literal role name `Compute` which maps to `novacompute`. -/
theorem expand_compute_hostnames :
    ((expandRolesRun [{ name := "Compute", count := some 3 }] "overcloud"
        "overcloud-full").map (fun r => r.instances.map Instance.hostname) =
      Except.ok [some "overcloud-novacompute-0", some "overcloud-novacompute-1",
        some "overcloud-novacompute-2"]) ∧
    (∀ role_name : String, role_name ≠ "Compute" →
      _hostname_format none role_name =
        "%stackname%-" ++ pyLower role_name ++ "-%index%") ∧
    _hostname_format none "Compute" = "%stackname%-novacompute-%index%" := by
  refine ⟨by decide, ?_, by decide⟩
  intro role_name hne
  unfold _hostname_format
  rw [if_neg hne]

/-- Witness for C6: a non-`Compute` role name gets the plain lowercased
alias. -/
theorem expand_compute_hostnames_witness :
    _hostname_format none "Controller" = "%stackname%-controller-%index%" :=
  (expand_compute_hostnames.2.1 "Controller" (by decide)).trans (by decide)

/-- C9: when the backend wait fails or times out,
`WaitForDeploymentAction.run` issues no release/unprovision call — it only
returns the error. -/
theorem wait_failure_releases_nothing
    (wait : List String → Nat → Except Exc String) (inst : WaitInstanceRef)
    (timeout : Nat) (e : String) (calls : List Call)
    (hrun : waitForDeploymentRun wait inst timeout = (.error e, calls)) :
    releasedNodes calls = [] := by
  unfold waitForDeploymentRun at hrun
  cases hw : wait [inst.uuid] timeout with
  | error exc =>
    rw [hw] at hrun
    injection hrun with h1 h2
    subst h2
    rfl
  | ok r =>
    rw [hw] at hrun
    simp at hrun

/-- Witness for C9: a timing-out wait leaves the trace free of release
calls. -/
theorem wait_failure_releases_nothing_witness :
    releasedNodes (waitForDeploymentRun
      (fun _ _ => .error { ty := "TimeoutError", msg := "timed out" })
      { hostname := "host-0", uuid := "uuid-1" } 3600).2 = [] :=
  wait_failure_releases_nothing
    (fun _ _ => .error { ty := "TimeoutError", msg := "timed out" })
    { hostname := "host-0", uuid := "uuid-1" } 3600
    "TimeoutError: timed out" _ (by rfl)

/-- C2: whenever discovery resolves a requested hostname to an instance whose
reported hostname is set and differs from the requested one, the whole call
returns the collision error at once — the result is the same for every
remaining batch `rest` and every partial result accumulated so far, so no
further instance is processed and no partial found/not-found payload is
returned. -/
theorem check_hostname_mismatch_aborts
    (showInst : String → ShowResult) (request : Instance)
    (rest not_found : List Instance) (found : List FoundInstance)
    (h : String) (inst : FoundInstance)
    (hh : request.hostname = some h)
    (hs : showInst h = ShowResult.found inst)
    (ht : truthy inst.hostname = true)
    (hne : inst.hostname ≠ some h) :
    checkLoop showInst (request :: rest) not_found found =
      .error (hostnameMismatchError h inst.uuid) := by
  have hb : (inst.hostname != some h) = true := by
    simpa using hne
  simp [checkLoop, hh, hs, ht, hb]

/-- Witness for C2: a backend instance reporting hostname `other` for the
requested hostname `wanted` aborts the batch. -/
theorem check_hostname_mismatch_aborts_witness :
    checkLoop (fun _ => ShowResult.found { hostname := some "other", uuid := "u1" })
      [{ hostname := some "wanted", image := some { href := "img" } },
       { hostname := some "later", image := some { href := "img" } }] [] [] =
      .error (hostnameMismatchError "wanted" "u1") := by
  exact check_hostname_mismatch_aborts _ _ _ _ _ "wanted"
    { hostname := some "other", uuid := "u1" } (by rfl) (by rfl) (by rfl)
    (by decide)

/-- Counterexample to C3: an instance carrying both `profile = newprofile`
and a pre-existing `capabilities.profile = oldprofile` is sent to the backend
with `capabilities.profile = newprofile` — the `profile` field overrides the
capability, not the other way around. -/
theorem reserve_profile_counterexample :
    (reserveNodesRun (fun _ => .ok "node-1") "baremetal"
        [{ image := some { href := "overcloud-full" },
           profile := some "newprofile",
           capabilities := some [("profile", "oldprofile")] }]).2 =
      [Call.reserve { resource_class := "baremetal",
                      capabilities := some [("profile", "newprofile")],
                      candidates := none,
                      traits := none } (.ok "node-1")] ∧
    ("newprofile" : String) ≠ "oldprofile" := by decide

/-- Counterexample to C4: an instance supplying both `name = node-name` and an
explicit `hostname = explicit-host` expands with final hostname
`explicit-host`, not its name. -/
theorem expand_hostname_priority_counterexample :
    (expandRolesRun [{ name := "r1",
                       instances := some [{ hostname := some "explicit-host",
                                            name := some "node-name" }] }]
      "overcloud" "overcloud-full").map
      (fun r => r.instances.map Instance.hostname) =
      Except.ok [some "explicit-host"] ∧
    ("explicit-host" : String) ≠ "node-name" := by decide

/-- Counterexample to C5: with hostname format `fixedname` (no `%index%`),
both instances generate the same candidate name, and the entry recorded for
instance 0 (which would map the candidate to `h-one`) is overwritten — the
final hostname map holds only instance 1's entry. -/
theorem hostname_map_overwrite_counterexample :
    (expandRolesRun [{ name := "r5", hostname_format := some "fixedname",
                       instances := some [{ hostname := some "h-one" },
                                          { hostname := some "h-two" }] }]
      "overcloud" "overcloud-full").map hostnameMapOf =
      Except.ok [("fixedname", "h-two")] ∧
    _build_hostname "fixedname" 0 "overcloud" = "fixedname" ∧
    ("h-two" : String) ≠ "h-one" := by decide

/-- Counterexample to C7: a requested instance without a declared hostname is
skipped silently — the discovery result reports it in neither `not_found`
nor `instances`. -/
theorem check_silent_skip_counterexample :
    checkExistingRun (fun _ => ShowResult.notFound)
      [{ image := some { href := "overcloud-full" } }] =
      .ok { not_found := [], instances := [] } := by decide

/-- Counterexample to C8: an invocation of deploy that fails validation
(hostname `h` is shorter than the schema minimum of 2) returns the error
with an empty backend trace — no release call is issued for the node. -/
theorem deploy_no_release_counterexample :
    deployNodeRun (fun _ => .ok "inst-1")
      { hostname := some "h", image := some { href := "overcloud-full" } }
      "node-1" "ctlplane" 49 = (.error "schema validation failed", []) ∧
    releasedNodes (deployNodeRun (fun _ => .ok "inst-1")
      { hostname := some "h", image := some { href := "overcloud-full" } }
      "node-1" "ctlplane" 49).2 = [] := by decide

theorem reservedNodes_append (a b : List Call) :
    reservedNodes (a ++ b) = reservedNodes a ++ reservedNodes b := by
  simp [reservedNodes, List.filterMap_append]

theorem releasedNodes_append (a b : List Call) :
    releasedNodes (a ++ b) = releasedNodes a ++ releasedNodes b := by
  simp [releasedNodes, List.filterMap_append]

theorem reservedNodes_reserve_ok (req : ReserveReq) (node : String) :
    reservedNodes [.reserve req (.ok node)] = [node] := rfl

theorem reservedNodes_reserve_error (req : ReserveReq) (e : Exc) :
    reservedNodes [.reserve req (.error e)] = [] := rfl

theorem releasedNodes_reserve (req : ReserveReq) (out : Except Exc String) :
    releasedNodes [.reserve req out] = [] := by
  cases out <;> rfl

theorem reservedNodes_release (nodes : List String) :
    reservedNodes (_release_nodes nodes) = [] := by
  induction nodes with
  | nil => rfl
  | cons n ns ih => exact ih

theorem releasedNodes_release (nodes : List String) :
    releasedNodes (_release_nodes nodes) = nodes := by
  induction nodes with
  | nil => rfl
  | cons n ns ih =>
    show n :: releasedNodes (_release_nodes ns) = n :: ns
    rw [ih]

/-- Invariant of the reservation loop: if the trace so far records exactly
the reserved nodes and no releases, then on an error exit the final trace's
released nodes are exactly its reserved nodes. -/
theorem reserveLoop_rollback (f : ReserveReq → Except Exc String) (drc : String)
    (l : List Instance) :
    ∀ (acc : List Reservation) (nodes : List String) (calls : List Call)
      (e : String) (calls' : List Call),
    reservedNodes calls = nodes → releasedNodes calls = [] →
    reserveLoop f drc l acc nodes calls = (.error e, calls') →
    releasedNodes calls' = reservedNodes calls' := by
  induction l with
  | nil =>
    intro acc nodes calls e calls' hres hrel hrun
    simp [reserveLoop] at hrun
  | cons inst rest ih =>
    intro acc nodes calls e calls' hres hrel hrun
    simp only [reserveLoop] at hrun
    cases hf : f (mkReserveReq drc (applyProfile inst)) with
    | ok node =>
      rw [hf] at hrun
      refine ih _ _ _ _ _ ?_ ?_ hrun
      · rw [reservedNodes_append, hres, reservedNodes_reserve_ok]
      · rw [releasedNodes_append, hrel, releasedNodes_reserve]
        rfl
    | error exc =>
      rw [hf] at hrun
      injection hrun with h1 h2
      subst h2
      rw [releasedNodes_append, releasedNodes_append, releasedNodes_release,
        releasedNodes_reserve, hrel, reservedNodes_append, reservedNodes_append,
        reservedNodes_release, reservedNodes_reserve_error, hres]
      simp

/-- C1: whenever `ReserveNodesAction.run` returns an error, the trace's
release calls cover exactly the nodes it had successfully reserved in that
same call (in the same order) — zero net reservations remain. -/
theorem reserve_rollback (f : ReserveReq → Except Exc String) (drc : String)
    (l : List Instance) (e : String) (calls : List Call)
    (hrun : reserveNodesRun f drc l = (.error e, calls)) :
    releasedNodes calls = reservedNodes calls := by
  unfold reserveNodesRun at hrun
  cases hv : _validate_instances l with
  | error msg =>
    rw [hv] at hrun
    injection hrun with h1 h2
    subst h2
    rfl
  | ok u =>
    rw [hv] at hrun
    exact reserveLoop_rollback f drc l [] [] [] e calls rfl rfl hrun

/-- Witness for C1: reserving `[nA, nB, nC]` against a backend that fails on
`nC` releases exactly the two nodes reserved before the failure. -/
theorem reserve_rollback_witness :
    releasedNodes (reserveNodesRun
      (fun req => if req.candidates == some ["nC"]
        then .error { ty := "BoomError", msg := "no free node" }
        else .ok ((req.candidates.getD ["n0"]).headD "n0"))
      "baremetal"
      [{ name := some "nA", image := some { href := "img" } },
       { name := some "nB", image := some { href := "img" } },
       { name := some "nC", image := some { href := "img" } }]).2 =
    reservedNodes (reserveNodesRun
      (fun req => if req.candidates == some ["nC"]
        then .error { ty := "BoomError", msg := "no free node" }
        else .ok ((req.candidates.getD ["n0"]).headD "n0"))
      "baremetal"
      [{ name := some "nA", image := some { href := "img" } },
       { name := some "nB", image := some { href := "img" } },
       { name := some "nC", image := some { href := "img" } }]).2 :=
  reserve_rollback
    (fun req => if req.candidates == some ["nC"]
      then .error { ty := "BoomError", msg := "no free node" }
      else .ok ((req.candidates.getD ["n0"]).headD "n0"))
    "baremetal"
    [{ name := some "nA", image := some { href := "img" } },
     { name := some "nB", image := some { href := "img" } },
     { name := some "nC", image := some { href := "img" } }]
    "BoomError: no free node" _ (by decide)

/-- Counting invariant of the discovery loop: a successful pass adds exactly
one entry (found or not-found) per request that carries a `hostname` key. -/
theorem checkLoop_counts (showInst : String → ShowResult) (l : List Instance) :
    ∀ (nf : List Instance) (fnd : List FoundInstance) (r : CheckResult),
    checkLoop showInst l nf fnd = .ok r →
    r.not_found.length + r.instances.length =
      nf.length + fnd.length + l.countP (fun i => i.hostname.isSome) := by
  induction l with
  | nil =>
    intro nf fnd r h
    simp only [checkLoop] at h
    injection h with h1
    subst h1
    simp
  | cons i rest ih =>
    intro nf fnd r h
    simp only [checkLoop] at h
    cases hh : i.hostname with
    | none =>
      rw [hh] at h
      have := ih nf fnd r h
      simp [List.countP_cons, hh, this]
    | some h' =>
      simp only [hh] at h
      cases hs : showInst h' with
      | notFound =>
        simp only [hs] at h
        have := ih (nf ++ [i]) fnd r h
        simp [List.countP_cons, hh, this]
        omega
      | backendError e =>
        simp only [hs] at h
        exact absurd h (by simp)
      | found inst =>
        simp only [hs] at h
        by_cases hc : (truthy inst.hostname && inst.hostname != some h') = true
        · rw [if_pos hc] at h
          exact absurd h (by simp)
        · rw [if_neg hc] at h
          have := ih nf (fnd ++ [inst]) r h
          simp [List.countP_cons, hh, this]
          omega

/-- C7 amended: instances without a declared hostname are skipped silently —
they appear in neither output; a successful `CheckExistingInstancesAction.run`
reports exactly one entry (found or not-found) per instance that declares a
hostname, so the two output lengths sum to the number of hostnamed inputs and
hostname-less inputs leave no trace in the result. -/
theorem check_reports_only_hostnamed (showInst : String → ShowResult)
    (instances : List Instance) (r : CheckResult)
    (hrun : checkExistingRun showInst instances = .ok r) :
    r.not_found.length + r.instances.length =
      instances.countP (fun i => i.hostname.isSome) := by
  unfold checkExistingRun at hrun
  cases hv : _validate_instances instances with
  | error msg =>
    rw [hv] at hrun
    exact absurd hrun (by simp)
  | ok u =>
    rw [hv] at hrun
    simpa using checkLoop_counts showInst instances [] [] r hrun

/-- Witness for C7's amended claim: of two requests, the hostnamed one is
reported found and the hostname-less one contributes nothing. -/
theorem check_reports_only_hostnamed_witness :
    ({ not_found := [],
       instances := [{ hostname := some "h1", uuid := "u1" }] } :
        CheckResult).not_found.length +
    ({ not_found := [],
       instances := [{ hostname := some "h1", uuid := "u1" }] } :
        CheckResult).instances.length =
      List.countP (fun i => i.hostname.isSome)
        [({ hostname := some "h1", image := some { href := "img" } } : Instance),
         ({ image := some { href := "img" } } : Instance)] :=
  check_reports_only_hostnamed
    (fun _ => ShowResult.found { hostname := some "h1", uuid := "u1" })
    [{ hostname := some "h1", image := some { href := "img" } },
     { image := some { href := "img" } }]
    { not_found := [], instances := [{ hostname := some "h1", uuid := "u1" }] }
    (by decide)

theorem assocGet_assocSet_self {α : Type} (l : List (String × α)) (k : String)
    (v : α) : assocGet (assocSet l k v) k = some v := by
  induction l with
  | nil => simp [assocSet, assocGet]
  | cons p rest ih =>
    obtain ⟨k', v'⟩ := p
    by_cases h : k' = k
    · simp [assocSet, assocGet, h]
    · simp [assocSet, assocGet, h, ih]

/-- Every reserve request in the run's trace was built by `mkReserveReq` from
`applyProfile` of some input instance. -/
theorem reserveLoop_calls (f : ReserveReq → Except Exc String) (drc : String)
    (l : List Instance) :
    ∀ (acc : List Reservation) (nodes : List String) (calls : List Call)
      (res : Except String (List Reservation)) (calls' : List Call),
    reserveLoop f drc l acc nodes calls = (res, calls') →
    ∀ (req : ReserveReq) (out : Except Exc String),
    Call.reserve req out ∈ calls' →
    Call.reserve req out ∈ calls ∨
      ∃ i, i ∈ l ∧ req = mkReserveReq drc (applyProfile i) := by
  induction l with
  | nil =>
    intro acc nodes calls res calls' hrun req out hmem
    simp only [reserveLoop] at hrun
    injection hrun with h1 h2
    subst h2
    exact Or.inl hmem
  | cons inst rest ih =>
    intro acc nodes calls res calls' hrun req out hmem
    simp only [reserveLoop] at hrun
    cases hf : f (mkReserveReq drc (applyProfile inst)) with
    | ok node =>
      rw [hf] at hrun
      rcases ih _ _ _ _ _ hrun req out hmem with hin | ⟨i, hi, hreq⟩
      · rcases List.mem_append.mp hin with hin1 | hin2
        · exact Or.inl hin1
        · refine Or.inr ⟨inst, List.mem_cons_self _ _, ?_⟩
          simp at hin2
          exact hin2.1
      · exact Or.inr ⟨i, List.mem_cons_of_mem _ hi, hreq⟩
    | error exc =>
      rw [hf] at hrun
      injection hrun with h1 h2
      subst h2
      rcases List.mem_append.mp hmem with hmem1 | hmem2
      · rcases List.mem_append.mp hmem1 with hin1 | hin2
        · exact Or.inl hin1
        · refine Or.inr ⟨inst, List.mem_cons_self _ _, ?_⟩
          simp at hin2
          exact hin2.1
      · exfalso
        simp [_release_nodes] at hmem2

/-- C3 amended: every reserve request the run sends to the backend is built
from some input instance by folding the `profile` field into
`capabilities.profile` with plain dict assignment — so for an instance with
a truthy `profile` the value sent for `capabilities.profile` is the `profile`
field itself, overriding any pre-existing capabilities value (the claim's
direction of precedence is reversed); when capabilities carry no profile key
the field's value is likewise folded in. -/
theorem reserve_profile_sent (f : ReserveReq → Except Exc String) (drc : String)
    (l : List Instance) (res : Except String (List Reservation))
    (calls : List Call) (req : ReserveReq) (out : Except Exc String)
    (hrun : reserveNodesRun f drc l = (res, calls))
    (hmem : Call.reserve req out ∈ calls) :
    (∃ i, i ∈ l ∧ req = mkReserveReq drc (applyProfile i)) ∧
    (∀ (i : Instance) (p : String),
      req = mkReserveReq drc (applyProfile i) → i.profile = some p → p ≠ "" →
      assocGet (req.capabilities.getD []) "profile" = some p) := by
  constructor
  · unfold reserveNodesRun at hrun
    cases hv : _validate_instances l with
    | error msg =>
      rw [hv] at hrun
      injection hrun with h1 h2
      subst h2
      exact absurd hmem (by simp)
    | ok u =>
      rw [hv] at hrun
      rcases reserveLoop_calls f drc l [] [] [] res calls hrun req out hmem with
        hin | hex
      · exact absurd hin (by simp)
      · exact hex
  · intro i p hreq hp hpne
    subst hreq
    have ht : truthy (some p) = true := by
      simp [truthy]
      simpa using hpne
    simp only [mkReserveReq, applyProfile, hp, ht, if_true]
    simp [assocGet_assocSet_self]

/-- Witness for C3's amended claim: with `profile = newprofile` and
pre-existing `capabilities.profile = oldprofile`, the request carries
`newprofile`. -/
theorem reserve_profile_sent_witness :
    assocGet ((mkReserveReq "baremetal" (applyProfile
      { image := some { href := "overcloud-full" },
        profile := some "newprofile",
        capabilities := some [("profile", "oldprofile")] })).capabilities.getD [])
      "profile" = some "newprofile" :=
  (reserve_profile_sent (fun _ => .ok "node-1") "baremetal"
    [{ image := some { href := "overcloud-full" },
       profile := some "newprofile",
       capabilities := some [("profile", "oldprofile")] }]
    (reserveNodesRun (fun _ => .ok "node-1") "baremetal"
      [{ image := some { href := "overcloud-full" },
         profile := some "newprofile",
         capabilities := some [("profile", "oldprofile")] }]).1
    (reserveNodesRun (fun _ => .ok "node-1") "baremetal"
      [{ image := some { href := "overcloud-full" },
         profile := some "newprofile",
         capabilities := some [("profile", "oldprofile")] }]).2
    (mkReserveReq "baremetal" (applyProfile
      { image := some { href := "overcloud-full" },
        profile := some "newprofile",
        capabilities := some [("profile", "oldprofile")] }))
    (.ok "node-1") rfl (by decide)).2
    { image := some { href := "overcloud-full" },
      profile := some "newprofile",
      capabilities := some [("profile", "oldprofile")] }
    "newprofile" rfl rfl (by decide)

/-- C8 amended: every reachable failure inside `DeployNodeAction.run`'s
`try` block releases the node exactly once before the error is returned —
both the `KeyError` raised by reading a missing `self.instance['hostname']`
(reachable, since validation does not require a hostname) and a failure of
the provision request itself, whose error message content is propagated
unmodified inside `"Type: message"`; but a validation failure is returned
before any backend interaction, with no release call issued.  (The only
other `try`-block step, image resolution, cannot fail once validation — which
performs the same resolution — has succeeded.) -/
theorem deploy_release_semantics :
    (∀ (prov : ProvisionReq → Except Exc String) (inst : Instance)
       (node default_network : String) (default_root_size : Nat) (e : String),
      _validate_instances [inst] = .error e →
      deployNodeRun prov inst node default_network default_root_size =
        (.error e, [])) ∧
    (∀ (prov : ProvisionReq → Except Exc String) (inst : Instance)
       (node default_network : String) (default_root_size : Nat)
       (image : Image),
      _validate_instances [inst] = .ok () →
      _get_source inst = .ok image →
      inst.hostname = none →
      deployNodeRun prov inst node default_network default_root_size =
        (.error "KeyError: 'hostname'", [Call.unprovision node])) ∧
    (∀ (prov : ProvisionReq → Except Exc String) (inst : Instance)
       (node default_network : String) (default_root_size : Nat)
       (hostname : String) (image : Image) (exc : Exc),
      _validate_instances [inst] = .ok () →
      _get_source inst = .ok image →
      inst.hostname = some hostname →
      prov (mkProvisionReq inst node hostname image default_network
        default_root_size) = .error exc →
      deployNodeRun prov inst node default_network default_root_size =
        (.error (exc.ty ++ ": " ++ exc.msg),
          [Call.provisionCall (mkProvisionReq inst node hostname image
              default_network default_root_size) (.error exc),
           Call.unprovision node])) := by
  refine ⟨?_, ?_, ?_⟩
  · intro prov inst node dn drs e hv
    simp only [deployNodeRun, hv]
  · intro prov inst node dn drs image hv hsrc hh
    simp only [deployNodeRun, hv, hsrc, hh, _release_nodes]
    rfl
  · intro prov inst node dn drs hostname image exc hv hsrc hh hprov
    simp only [deployNodeRun, hv, hsrc, hh, hprov, _release_nodes]
    rfl

/-- Witness for C8's amended claim: a validated instance without a hostname
fails in the `try` block with `KeyError: 'hostname'` and one release call,
and a provision request refused by the backend yields exactly one release
call and the error `BoomError: power fault`. -/
theorem deploy_release_semantics_witness :
    (deployNodeRun (fun _ => .ok "inst-3")
      { image := some { href := "img" } } "node-3" "ctlplane" 49 =
      (.error "KeyError: 'hostname'", [Call.unprovision "node-3"])) ∧
    deployNodeRun (fun _ => .error { ty := "BoomError", msg := "power fault" })
      { hostname := some "host-2", image := some { href := "img" } }
      "node-2" "ctlplane" 49 =
      (.error "BoomError: power fault",
        [Call.provisionCall (mkProvisionReq
            { hostname := some "host-2", image := some { href := "img" } }
            "node-2" "host-2" { href := "img" } "ctlplane" 49)
          (.error { ty := "BoomError", msg := "power fault" }),
         Call.unprovision "node-2"]) :=
  ⟨deploy_release_semantics.2.1 (fun _ => .ok "inst-3")
    { image := some { href := "img" } } "node-3" "ctlplane" 49
    { href := "img" } (by decide) (by decide) rfl,
   deploy_release_semantics.2.2
    (fun _ => .error { ty := "BoomError", msg := "power fault" })
    { hostname := some "host-2", image := some { href := "img" } }
    "node-2" "ctlplane" 49 "host-2" { href := "img" }
    { ty := "BoomError", msg := "power fault" }
    (by decide) (by decide) rfl rfl⟩

/-- C10: a role with neither `count` nor `instances` is expanded with a
default count of 1: exactly one instance, carrying the index-0 generated
hostname and the default image. -/
theorem expand_default_count_one (name stackname default_image : String)
    (h2 : 2 ≤ (_build_hostname (_hostname_format none name) 0 stackname).length)
    (h255 : (_build_hostname (_hostname_format none name) 0 stackname).length ≤ 255) :
    (expandRolesRun [{ name := name }] stackname default_image).map
      ExpandResult.instances =
      Except.ok [{ hostname := some (_build_hostname
                     (_hostname_format none name) 0 stackname),
                   image := some { href := default_image } }] := by
  have hne : (_build_hostname (_hostname_format none name) 0 stackname) ≠ "" := by
    intro hempty
    rw [hempty] at h2
    have : ("" : String).length = 0 := rfl
    omega
  simp [expandRolesRun, prePassRole, _validate_roles, roleSchemaOk,
    validateRolesGo, checkDefaults, expandRolesLoop, expandCount,
    List.range_succ, _validate_instances, instSchemaOk, validateInstancesGo,
    _get_source, sources_detect, addHostname, addName, bne_iff_ne,
    Except.map, h2, h255, hne]

/-- Witness for C10: role `Controller`, stack `overcloud`, default image
`overcloud-full`. -/
theorem expand_default_count_one_witness :
    (expandRolesRun [{ name := "Controller" }] "overcloud"
        "overcloud-full").map ExpandResult.instances =
      Except.ok [{ hostname := some "overcloud-controller-0",
                   image := some { href := "overcloud-full" } }] :=
  expand_default_count_one "Controller" "overcloud" "overcloud-full"
    (by decide) (by decide)

/-- The hostname `expandInst` assigns to a pre-passed instance, in terms of
the original instance's fields: explicit `hostname` first, then `name`, then
the generated candidate (valid whenever the role's `defaults` carry neither
`hostname` nor `name`, which `_validate_roles` enforces). -/
theorem expandInst_hostname (default_image : String) (defaults : Option Instance)
    (hd : ∀ d, defaults = some d → d.hostname = none ∧ d.name = none)
    (x : Instance) (gen : String) :
    (expandInst defaults gen (prePassInst default_image x)).hostname =
      some (specFinalHostname x gen) := by
  cases hdef : defaults with
  | none =>
    cases hxi : x.image <;> cases hxh : x.hostname <;> cases hxn : x.name <;>
      simp [expandInst, mergeInst, prePassInst, specFinalHostname,
        hxi, hxh, hxn]
  | some d =>
    obtain ⟨hdh, hdn⟩ := hd d hdef
    cases hxi : x.image <;> cases hxh : x.hostname <;> cases hxn : x.name <;>
      simp [expandInst, mergeInst, prePassInst, specFinalHostname,
        hxi, hxh, hxn, hdh, hdn]

/-- C4 amended: in the explicit-instances expansion (pre-pass of lines
349–357 followed by lines 382–391), the final hostname of the instance at
position `i` is the instance's own explicit `hostname` when present,
otherwise its `name` when present, otherwise the hostname generated from the
role's format at index `i` — an explicitly supplied `hostname` takes
priority over `name`, the reverse of the claimed order. -/
theorem expand_explicit_hostname_priority (default_image fmt stackname : String)
    (defaults : Option Instance)
    (hd : ∀ d, defaults = some d → d.hostname = none ∧ d.name = none)
    (insts : List Instance) :
    ∀ k : Nat,
    (expandExplicit defaults fmt stackname k
        (insts.map (prePassInst default_image))).1.map Instance.hostname =
      (List.enumFrom k insts).map
        (fun p => some (specFinalHostname p.2
          (_build_hostname fmt p.1 stackname))) := by
  induction insts with
  | nil =>
    intro k
    simp [expandExplicit]
  | cons x rest ih =>
    intro k
    simp only [List.map_cons, expandExplicit, List.enumFrom]
    rw [expandInst_hostname default_image defaults hd x
      (_build_hostname fmt k stackname), ih (k + 1)]

/-- Witness for C4's amended claim: explicit hostname, then name, then the
generated candidate. -/
theorem expand_explicit_hostname_priority_witness :
    (expandExplicit none "pre-%index%" "overcloud" 0
        ([{ hostname := some "ha", name := some "na" },
          { name := some "nb" },
          ({} : Instance)].map (prePassInst "img"))).1.map Instance.hostname =
      [some "ha", some "nb", some "pre-2"] :=
  (expand_explicit_hostname_priority "img" "pre-%index%" "overcloud" none
    (fun d h => Option.noConfusion h)
    [{ hostname := some "ha", name := some "na" },
     { name := some "nb" },
     ({} : Instance)] 0).trans (by decide)

theorem assocGet_assocSet_ne {α : Type} (l : List (String × α)) (k' k : String)
    (v : α) (h : k' ≠ k) : assocGet (assocSet l k' v) k = assocGet l k := by
  induction l with
  | nil => simp [assocSet, assocGet, h]
  | cons p rest ih =>
    obtain ⟨k1, v1⟩ := p
    by_cases h1 : k1 = k'
    · subst h1
      simp [assocSet, assocGet, h]
    · simp [assocSet, assocGet, h1, ih]

theorem assocGet_foldl_not_mem {α : Type} (pairs : List (String × α)) :
    ∀ (m : List (String × α)) (k : String),
    k ∉ pairs.map Prod.fst →
    assocGet (pairs.foldl (fun m p => assocSet m p.1 p.2) m) k = assocGet m k := by
  induction pairs with
  | nil =>
    intro m k _
    rfl
  | cons p rest ih =>
    intro m k hk
    simp only [List.map_cons, List.mem_cons] at hk
    push_neg at hk
    simp only [List.foldl_cons]
    rw [ih _ k hk.2, assocGet_assocSet_ne _ _ _ _ (fun hx => hk.1 hx.symm)]

theorem assocGet_foldl_of_getElem {α : Type} (pairs : List (String × α)) :
    ∀ (j : Nat) (k : String) (v : α) (m : List (String × α)),
    (pairs.map Prod.fst).Nodup → pairs[j]? = some (k, v) →
    assocGet (pairs.foldl (fun m p => assocSet m p.1 p.2) m) k = some v := by
  induction pairs with
  | nil =>
    intro j k v m _ hj
    simp at hj
  | cons p rest ih =>
    intro j k v m hnd hj
    simp only [List.map_cons, List.nodup_cons] at hnd
    simp only [List.foldl_cons]
    cases j with
    | zero =>
      simp only [List.getElem?_cons_zero] at hj
      injection hj with hp
      subst hp
      rw [assocGet_foldl_not_mem rest _ k hnd.1, assocGet_assocSet_self]
    | succ j' =>
      simp only [List.getElem?_cons_succ] at hj
      exact ih j' k v _ hnd.2 hj

theorem expandInst_hostname_isSome (defaults : Option Instance) (gen : String)
    (x : Instance) :
    (expandInst defaults gen x).hostname =
      some ((expandInst defaults gen x).hostname.getD "") := rfl

/-- Each position `j` of the explicit expansion records the hostname-map pair
`(generated candidate at j, final hostname of the produced instance at j)`. -/
theorem expandExplicit_get_pair (defaults : Option Instance)
    (fmt stackname : String) (insts : List Instance) :
    ∀ (k j : Nat) (i3 : Instance),
    (expandExplicit defaults fmt stackname k insts).1[j]? = some i3 →
    ∃ h, i3.hostname = some h ∧
      (expandExplicit defaults fmt stackname k insts).2[j]? =
        some (_build_hostname fmt (k + j) stackname, h) := by
  induction insts with
  | nil =>
    intro k j i3 hj
    simp [expandExplicit] at hj
  | cons x rest ih =>
    intro k j i3 hj
    cases j with
    | zero =>
      simp only [expandExplicit, List.getElem?_cons_zero] at hj ⊢
      injection hj with hi3
      subst hi3
      exact ⟨_, expandInst_hostname_isSome defaults
        (_build_hostname fmt k stackname) x, by simp⟩
    | succ j' =>
      simp only [expandExplicit, List.getElem?_cons_succ] at hj ⊢
      obtain ⟨h, hh, hpair⟩ := ih (k + 1) j' i3 hj
      refine ⟨h, hh, ?_⟩
      have harith : k + (j' + 1) = k + 1 + j' := by omega
      rw [harith]
      exact hpair

/-- The keys of the recorded hostname-map pairs are exactly the generated
candidate hostnames, in positional order. -/
theorem expandExplicit_keys (defaults : Option Instance)
    (fmt stackname : String) (insts : List Instance) :
    ∀ k : Nat,
    (expandExplicit defaults fmt stackname k insts).2.map Prod.fst =
      (List.range insts.length).map
        (fun idx => _build_hostname fmt (k + idx) stackname) := by
  induction insts with
  | nil =>
    intro k
    simp [expandExplicit]
  | cons x rest ih =>
    intro k
    simp only [expandExplicit, List.map_cons, List.length_cons,
      List.range_succ_eq_map, List.map_map]
    congr 1
    rw [ih (k + 1)]
    refine List.map_congr_left ?_
    intro a _
    simp only [Function.comp]
    rw [show k + 1 + a = k + (a + 1) from by omega]

/-- C5 amended: provided the generated candidate hostnames of the role are
pairwise distinct (as they are whenever the hostname format contains
`%index%`), the hostname map finally contains, for every position `j`, the
entry mapping the generated candidate at `j` to the final chosen hostname of
the instance produced at `j`; when candidates collide, later entries
overwrite earlier ones (see the counterexample). -/
theorem expand_explicit_hostname_map (defaults : Option Instance)
    (fmt stackname : String) (insts : List Instance) (j : Nat) (i3 : Instance)
    (hnd : ((List.range insts.length).map
      (fun idx => _build_hostname fmt idx stackname)).Nodup)
    (hj : (expandExplicit defaults fmt stackname 0 insts).1[j]? = some i3) :
    assocGet ((expandExplicit defaults fmt stackname 0 insts).2.foldl
        (fun m p => assocSet m p.1 p.2) []) (_build_hostname fmt j stackname) =
      i3.hostname := by
  obtain ⟨h, hh, hpair⟩ :=
    expandExplicit_get_pair defaults fmt stackname insts 0 j i3 hj
  rw [hh]
  have hkeys :
      ((expandExplicit defaults fmt stackname 0 insts).2.map Prod.fst).Nodup := by
    rw [expandExplicit_keys]
    simpa using hnd
  have h0j : _build_hostname fmt j stackname =
      _build_hostname fmt (0 + j) stackname := by
    rw [Nat.zero_add]
  rw [h0j]
  exact assocGet_foldl_of_getElem _ j _ h [] hkeys hpair

/-- Witness for C5's amended claim: the spec's round-trip — an explicit
`hostname = "foo"` at position 2 is reachable in the hostname map under the
generated positional name. -/
theorem expand_explicit_hostname_map_witness :
    assocGet ((expandExplicit none "overcloud-r-%index%" "overcloud" 0
        [({} : Instance), ({} : Instance),
         { hostname := some "foo" }]).2.foldl
        (fun m p => assocSet m p.1 p.2) [])
      (_build_hostname "overcloud-r-%index%" 2 "overcloud") = some "foo" :=
  expand_explicit_hostname_map none "overcloud-r-%index%" "overcloud"
    [({} : Instance), ({} : Instance), { hostname := some "foo" }] 2
    { hostname := some "foo" } (by decide) (by decide)

end BaremetalDeploy
